import Mathlib

set_option maxHeartbeats 1000000

/-!
Verification development for the binary property list (bplist00) codec in
src/bplist.c.  The C file implements two top-level operations:

  * parse_plist    : bytes -> value   (header/trailer validation, offset
                     table navigation, recursive tagged-object decoding)
  * generate_plist : value -> bytes   (recursive tagged-object encoding,
                     offset recording, finalizer choosing offset_size and
                     appending offset table and trailer)

The embedding below models byte buffers as `List Nat` (each entry a byte
value), machine integers as `Nat`/`Int` with explicit `% 2 ^ w` where the C
code truncates, and fallible code as `Except`/sum results.  Python host
values (the trees handed to `generate` and produced by `parse`) are the
inductive type `PValue`.  IEEE-754 doubles are carried as their 64-bit bit
patterns; arithmetic on doubles (the date epoch shift performed by
parse_date/generate_date on the host float) is outside the embedding, so a
`date` carries the on-wire bit pattern (seconds since 2001 as an IEEE-754
double).  Python float equality, however, is decidable on bit patterns
(two non-NaN doubles are equal iff their patterns agree or both are zeros;
NaN compares unequal to everything) and is modelled faithfully.
-/

/-! ## Byte-level primitives

`beBytes` is the big-endian serialization performed by pack_uint together
with the SwapHostToBig macros; `readBE` is the corresponding read.  The C
unpack_uint switch has cases 1/2/4 and a default that falls through to the
8 byte case; `unpackUintAt` reproduces exactly that shape.
-/

def byteAt (bs : List Nat) (i : Nat) : Nat := bs.getD i 0

def beBytes : Nat → Nat → List Nat
  | 0, _ => []
  | w + 1, n => (n / 2 ^ (8 * w)) % 256 :: beBytes w n

def readBE (bs : List Nat) (pos : Nat) : Nat → Nat
  | 0 => 0
  | w + 1 => byteAt bs pos * 2 ^ (8 * w) + readBE bs (pos + 1) w

/-- unpack_uint from bplist.c: widths 1, 2 and 4 read that many big-endian
bytes; every other width (the `default` case of the switch) reads 8. -/
def unpackUintAt (bs : List Nat) (pos : Nat) (w : Nat) : Nat :=
  if w = 1 then readBE bs pos 1
  else if w = 2 then readBE bs pos 2
  else if w = 4 then readBE bs pos 4
  else readBE bs pos 8

/-- unpack_int from bplist.c: the marker byte selects the width; markers
0x10/0x11/0x12 zero-extend 1/2/4 bytes, every other marker (`default`
together with the 0x13 case) reads 8 bytes reinterpreted as a signed
two-complement 64-bit integer. -/
def unpackIntAt (bs : List Nat) (pos : Nat) (type : Nat) : Int :=
  if type = 0x10 then (readBE bs pos 1 : Int)
  else if type = 0x11 then (readBE bs pos 2 : Int)
  else if type = 0x12 then (readBE bs pos 4 : Int)
  else
    let u := readBE bs pos 8
    if u < 2 ^ 63 then (u : Int) else (u : Int) - 2 ^ 64

/-- unpack_length from bplist.c.  The low nibble of the marker is the
length unless it is 0x0F, in which case a full int object follows: its
marker byte `it` gives a width of `1 <<< (it &&& 0xF)` bytes which are read
through unpack_int.  Returns the (signed) length together with the
position just past the length encoding. -/
def unpackLength (bs : List Nat) (type : Nat) (pos : Nat) : Int × Nat :=
  if type &&& 0xF = 0xF then
    let it := byteAt bs pos
    let w := 2 ^ (it &&& 0xF)
    (unpackIntAt bs (pos + 1) it, pos + 1 + w)
  else (((type &&& 0xF : Nat) : Int), pos)

/-- Count of leading zero bits of a 64-bit quantity, as computed by
`__builtin_clzll`; the C code guards the zero case itself for pack_int
(`swappy == 0 ? 64 : clz`).  `__builtin_clzll(0)` is undefined in C; the
model returns 64 there (the behaviour of the lzcnt instruction), and every
theorem about uids below assumes a nonzero value. -/
def clz64 (n : Nat) : Nat := if n = 0 then 64 else 63 - Nat.log2 n

/-- The two-complement reinterpretation of a signed 64-bit integer as an
unsigned one (the `magic_box` union in pack_int). -/
def i64ToU64 (v : Int) : Nat := (v % (2 ^ 64)).toNat

/-- pack_int from bplist.c: the switch on the leading-zero count of the
value reinterpreted as u64.  Leading-zero counts 0..31 (some bit in the
high 32 bits, which includes every negative input) select marker 0x13 with
8 big-endian bytes, 32..47 select 0x12 with 4 bytes, 48..55 select 0x11
with 2 bytes, and 56..64 (with the unreachable default) select 0x10 with
a single byte. -/
def packIntBytes (v : Int) : List Nat :=
  let swappy := i64ToU64 v
  let w := if swappy = 0 then 64 else clz64 swappy
  if w ≤ 31 then 0x13 :: beBytes 8 swappy
  else if w ≤ 47 then 0x12 :: beBytes 4 swappy
  else if w ≤ 55 then 0x11 :: beBytes 2 swappy
  else 0x10 :: beBytes 1 swappy

/-- generate_uid from bplist.c: the same leading-zero-count switch as
pack_int, but emitting uid markers 0x87/0x83/0x81/0x80 for widths
8/4/2/1. -/
def uidBytes (n : Nat) : List Nat :=
  let w := clz64 n
  if w ≤ 31 then 0x87 :: beBytes 8 n
  else if w ≤ 47 then 0x83 :: beBytes 4 n
  else if w ≤ 55 then 0x81 :: beBytes 2 n
  else 0x80 :: beBytes 1 n

/-- pack_type_and_length from bplist.c: lengths below 15 are stored in the
marker low nibble; otherwise the marker low nibble is 0xF and a full int
object carrying the length follows. -/
def packTypeLen (tag : Nat) (n : Nat) : List Nat :=
  if n < 0xF then [tag ||| n] else (tag ||| 0xF) :: packIntBytes (n : Int)

/-! ### Basic lemmas about the byte primitives -/

theorem beBytes_length (w n : Nat) : (beBytes w n).length = w := by
  induction w generalizing n with
  | zero => rfl
  | succ w ih => simp [beBytes, ih]

/-- Pointwise agreement of a buffer with a byte list placed at `pos`. -/
def sliceEq (bs : List Nat) (pos : Nat) (l : List Nat) : Prop :=
  ∀ i, i < l.length → byteAt bs (pos + i) = byteAt l i

theorem sliceEq_nil (bs : List Nat) (pos : Nat) : sliceEq bs pos [] := by
  intro i hi; simp at hi

theorem sliceEq_append {bs : List Nat} {pos : Nat} {a b : List Nat} :
    sliceEq bs pos (a ++ b) ↔ sliceEq bs pos a ∧ sliceEq bs (pos + a.length) b := by
  constructor
  · intro h
    constructor
    · intro i hi
      have := h i (by simp; omega)
      rwa [show byteAt (a ++ b) i = byteAt a i by
        simp [byteAt, List.getD, List.getElem?_append_left hi]] at this
    · intro i hi
      have := h (a.length + i) (by simp; omega)
      rw [show pos + (a.length + i) = pos + a.length + i by omega] at this
      rwa [show byteAt (a ++ b) (a.length + i) = byteAt b i by
        simp [byteAt, List.getD, List.getElem?_append_right (by omega : a.length ≤ a.length + i)]] at this
  · intro ⟨h1, h2⟩ i hi
    simp at hi
    by_cases hc : i < a.length
    · rw [h1 i hc]
      simp [byteAt, List.getD, List.getElem?_append_left hc]
    · have hge : a.length ≤ i := by omega
      have := h2 (i - a.length) (by omega)
      rw [show pos + a.length + (i - a.length) = pos + i by omega] at this
      rw [this]
      simp [byteAt, List.getD, List.getElem?_append_right hge]

theorem sliceEq_cons {bs : List Nat} {pos : Nat} {x : Nat} {l : List Nat} :
    sliceEq bs pos (x :: l) ↔ byteAt bs pos = x ∧ sliceEq bs (pos + 1) l := by
  have := @sliceEq_append bs pos [x] l
  simp at this
  rw [this]
  constructor
  · intro ⟨h1, h2⟩
    refine ⟨?_, h2⟩
    have := h1 0 (by simp)
    simpa [byteAt] using this
  · intro ⟨h1, h2⟩
    refine ⟨?_, h2⟩
    intro i hi
    simp at hi
    subst hi
    simpa [byteAt] using h1

theorem sliceEq_self (l : List Nat) : sliceEq l 0 l := by
  intro i hi; simp [byteAt]

theorem sliceEq_of_append_left {a b : List Nat} {pos : Nat} {l : List Nat}
    (h : sliceEq a pos l) (hb : pos + l.length ≤ a.length) :
    sliceEq (a ++ b) pos l := by
  intro i hi
  rw [← h i hi]
  simp [byteAt, List.getD, List.getElem?_append_left (by omega : pos + i < a.length)]

theorem sliceEq_append_right (a : List Nat) {b : List Nat} {pos : Nat} {l : List Nat}
    (h : sliceEq b pos l) :
    sliceEq (a ++ b) (a.length + pos) l := by
  intro i hi
  rw [← h i hi]
  rw [show a.length + pos + i = a.length + (pos + i) by omega]
  simp [byteAt, List.getD, List.getElem?_append_right (by omega : a.length ≤ a.length + (pos + i))]

/-- Reading back `w` big-endian bytes recovers the value modulo `2 ^ (8 w)`. -/
theorem readBE_beBytes {bs : List Nat} {pos : Nat} {w n : Nat}
    (h : sliceEq bs pos (beBytes w n)) : readBE bs pos w = n % 2 ^ (8 * w) := by
  induction w generalizing pos n with
  | zero => simp [readBE]; omega
  | succ w ih =>
    rw [show beBytes (w + 1) n = (n / 2 ^ (8 * w)) % 256 :: beBytes w n from rfl] at h
    rw [sliceEq_cons] at h
    obtain ⟨h1, h2⟩ := h
    have hr := ih h2
    rw [readBE, h1, hr]
    have h256 : (256 : Nat) = 2 ^ 8 := by norm_num
    have hsplit : 2 ^ (8 * (w + 1)) = 2 ^ (8 * w) * 2 ^ 8 := by ring
    rw [hsplit, h256, Nat.mod_mul]
    ring

theorem readBE_eq_of_sliceEq {bs bs2 : List Nat} {pos pos2 : Nat} {w : Nat}
    (h : ∀ i, i < w → byteAt bs (pos + i) = byteAt bs2 (pos2 + i)) :
    readBE bs pos w = readBE bs2 pos2 w := by
  induction w generalizing pos pos2 with
  | zero => rfl
  | succ w ih =>
    rw [readBE, readBE]
    have h0 := h 0 (by omega)
    simp only [Nat.add_zero] at h0
    rw [h0]
    congr 1
    exact ih (fun i hi => by
      have := h (1 + i) (by omega)
      rw [show pos + (1 + i) = pos + 1 + i by omega, show pos2 + (1 + i) = pos2 + 1 + i by omega] at this
      exact this)

/-! ### Leading-zero-count bridge lemmas

The pack_int/generate_uid switches test `__builtin_clzll`; these lemmas
convert the leading-zero-count ranges into value ranges. -/

theorem i64ToU64_lt (v : Int) : i64ToU64 v < 2 ^ 64 := by
  unfold i64ToU64
  have h1 : 0 ≤ v % (2 ^ 64) := Int.emod_nonneg v (by norm_num)
  have h2 : v % (2 ^ 64) < 2 ^ 64 := Int.emod_lt_of_pos v (by norm_num)
  omega

theorem clz64_le_iff {n k : Nat} (hn : n ≠ 0) (hlt : n < 2 ^ 64) (hk : k ≤ 63) :
    clz64 n ≤ k ↔ 2 ^ (63 - k) ≤ n := by
  have hlog_lt : Nat.log2 n < 64 := (Nat.log2_lt hn).mpr hlt
  unfold clz64
  rw [if_neg hn]
  rw [← Nat.le_log2 hn]
  omega

theorem i64ToU64_of_nonneg {v : Int} (h0 : 0 ≤ v) (h1 : v < 2 ^ 64) :
    i64ToU64 v = v.toNat := by
  unfold i64ToU64
  have h2 : v % (2 ^ 64) = v := Int.emod_eq_of_lt h0 (by exact_mod_cast h1)
  rw [h2]

theorem i64ToU64_of_neg {v : Int} (h0 : -(2 ^ 63) ≤ v) (h1 : v < 0) :
    i64ToU64 v = (v + 2 ^ 64).toNat := by
  unfold i64ToU64
  have h2 : v % (2 ^ 64) = v + 2 ^ 64 := by omega
  rw [h2]

/-- Range characterization of pack_int: the leading-zero-count switch is
equivalent to comparing the reinterpreted value against 2^32, 2^16 and
2^8. -/
theorem packIntBytes_eq (v : Int) :
    packIntBytes v =
      (if 2 ^ 32 ≤ i64ToU64 v then 0x13 :: beBytes 8 (i64ToU64 v)
       else if 2 ^ 16 ≤ i64ToU64 v then 0x12 :: beBytes 4 (i64ToU64 v)
       else if 2 ^ 8 ≤ i64ToU64 v then 0x11 :: beBytes 2 (i64ToU64 v)
       else 0x10 :: beBytes 1 (i64ToU64 v)) := by
  have hlt := i64ToU64_lt v
  simp only [packIntBytes]
  generalize i64ToU64 v = u at hlt ⊢
  by_cases h0 : u = 0
  · subst h0
    norm_num
  · rw [if_neg h0]
    have hc32 := clz64_le_iff (n := u) (k := 31) h0 hlt (by norm_num)
    have hc16 := clz64_le_iff (n := u) (k := 47) h0 hlt (by norm_num)
    have hc8 := clz64_le_iff (n := u) (k := 55) h0 hlt (by norm_num)
    by_cases h32 : 2 ^ 32 ≤ u
    · rw [if_pos (hc32.mpr h32), if_pos h32]
    · rw [if_neg (fun hcl => h32 (hc32.mp hcl)), if_neg h32]
      by_cases h16 : 2 ^ 16 ≤ u
      · rw [if_pos (hc16.mpr h16), if_pos h16]
      · rw [if_neg (fun hcl => h16 (hc16.mp hcl)), if_neg h16]
        by_cases h8 : 2 ^ 8 ≤ u
        · rw [if_pos (hc8.mpr h8), if_pos h8]
        · rw [if_neg (fun hcl => h8 (hc8.mp hcl)), if_neg h8]

/-- Range characterization of generate_uid for nonzero values (the zero
case would evaluate `__builtin_clzll(0)`, which is undefined in C). -/
theorem uidBytes_eq {n : Nat} (hn : n ≠ 0) (hlt : n < 2 ^ 64) :
    uidBytes n =
      (if 2 ^ 32 ≤ n then 0x87 :: beBytes 8 n
       else if 2 ^ 16 ≤ n then 0x83 :: beBytes 4 n
       else if 2 ^ 8 ≤ n then 0x81 :: beBytes 2 n
       else 0x80 :: beBytes 1 n) := by
  simp only [uidBytes]
  have hc32 := clz64_le_iff (n := n) (k := 31) hn hlt (by norm_num)
  have hc16 := clz64_le_iff (n := n) (k := 47) hn hlt (by norm_num)
  have hc8 := clz64_le_iff (n := n) (k := 55) hn hlt (by norm_num)
  by_cases h32 : 2 ^ 32 ≤ n
  · rw [if_pos (hc32.mpr h32), if_pos h32]
  · rw [if_neg (fun hcl => h32 (hc32.mp hcl)), if_neg h32]
    by_cases h16 : 2 ^ 16 ≤ n
    · rw [if_pos (hc16.mpr h16), if_pos h16]
    · rw [if_neg (fun hcl => h16 (hc16.mp hcl)), if_neg h16]
      by_cases h8 : 2 ^ 8 ≤ n
      · rw [if_pos (hc8.mpr h8), if_pos h8]
      · rw [if_neg (fun hcl => h8 (hc8.mp hcl)), if_neg h8]

/-! ## The value universe

`PValue` models the Python values the codec supports.  Floats and dates
carry 64-bit IEEE-754 bit patterns (for a date, the pattern stored on the
wire, i.e. seconds since 2001-01-01; the host-side conversion to Unix
seconds performed by parse_date/generate_date is floating-point arithmetic
on the host and outside the embedding).  Strings are carried as their
UTF-16 code-unit sequences (Python strings with all code points below
0x100 coincide with their unit sequences; astral code points appear as
surrogate pairs, exactly what the host utf-16-be codec produces). -/

inductive PValue where
  | bool (b : Bool)
  | int (i : Int)
  | float (bits : Nat)
  | date (bits : Nat)
  | uid (n : Nat)
  | data (bs : List Nat)
  | string (units : List Nat)
  | array (xs : List PValue)
  | dict (kvs : List (PValue × PValue))

/-- Number of bplist objects emitted for a value: one for the value itself
plus one for every (transitive) child. -/
def objCount : PValue → Nat
  | .array xs => 1 + objCountList xs
  | .dict kvs => 1 + objCountPairs kvs
  | _ => 1
where
  objCountList : List PValue → Nat
    | [] => 0
    | x :: r => objCount x + objCountList r
  objCountPairs : List (PValue × PValue) → Nat
    | [] => 0
    | (k, v) :: r => objCount k + objCount v + objCountPairs r

/-- CPython's PyLong_Check is a subtype check: it accepts every object
whose type has the long-subclass flag, which includes `bool` (bool is a
subclass of int in Python).  PyLong_AsSsize_t maps False to 0 and True
to 1. -/
def pyIntValue : PValue → Int
  | .int i => i
  | .bool b => if b then 1 else 0
  | _ => 0

/-- Normalization describing what survives a generate/parse round trip:
because generate_plist_object tests PyLong_Check before the PyBool_Type
branch, booleans are emitted as the integers 0/1 (the dedicated boolean
branch in the C dispatch is unreachable), so parsing the generated buffer
returns plain integers where the input had booleans. -/
def pnorm : PValue → PValue
  | .bool b => .int (if b then 1 else 0)
  | .int i => .int i
  | .float b => .float b
  | .date b => .date b
  | .uid n => .uid n
  | .data bs => .data bs
  | .string us => .string us
  | .array xs => .array (pnormList xs)
  | .dict kvs => .dict (pnormPairs kvs)
where
  pnormList : List PValue → List PValue
    | [] => []
    | x :: r => pnorm x :: pnormList r
  pnormPairs : List (PValue × PValue) → List (PValue × PValue)
    | [] => []
    | (k, v) :: r => (pnorm k, pnorm v) :: pnormPairs r

/-- A 64-bit IEEE-754 pattern denotes NaN when the exponent field is all
ones and the mantissa is nonzero. -/
def isNan64 (b : Nat) : Bool :=
  decide ((b / 2 ^ 52) % 2 ^ 11 = 0x7FF ∧ b % 2 ^ 52 ≠ 0)

/-- A 64-bit IEEE-754 pattern denoting positive or negative zero. -/
def isZero64 (b : Nat) : Bool :=
  decide (b % 2 ^ 64 = 0 ∨ b % 2 ^ 64 = 2 ^ 63)

/-- Equality of the doubles denoted by two bit patterns, i.e. Python `==`
restricted to floats: NaN is unequal to everything (including itself),
the two zeros are equal, and otherwise distinct patterns denote distinct
doubles. -/
def floatEqBits (a b : Nat) : Bool :=
  if isNan64 a || isNan64 b then false
  else if isZero64 a && isZero64 b then true
  else a == b

/-- Structural equality on normalized values modelling Python `==` on the
trees the codec exchanges.  Floats (and dates, which are float subclasses
on the Python side) compare IEEE-wise.  Cross-type numeric equalities that
Python also grants (int vs float, uid vs int, timestamp vs float) are not
identified here; they never arise between a parsed tree and its source. -/
def pvBeq : PValue → PValue → Bool
  | .bool a, .bool b => a == b
  | .int a, .int b => a == b
  | .float a, .float b => floatEqBits a b
  | .date a, .date b => floatEqBits a b
  | .uid a, .uid b => a == b
  | .data a, .data b => a == b
  | .string a, .string b => a == b
  | .array a, .array b => pvBeqList a b
  | .dict a, .dict b => pvBeqPairs a b
  | _, _ => false
where
  pvBeqList : List PValue → List PValue → Bool
    | [], [] => true
    | x :: xs, y :: ys => pvBeq x y && pvBeqList xs ys
    | _, _ => false
  pvBeqPairs : List (PValue × PValue) → List (PValue × PValue) → Bool
    | [], [] => true
    | (k1, v1) :: xs, (k2, v2) :: ys => pvBeq k1 k2 && pvBeq v1 v2 && pvBeqPairs xs ys
    | _, _ => false

/-- Python `==` on codec values: booleans are numerically equal to their
0/1 integer images, so both sides are normalized first. -/
def pyEq (a b : PValue) : Bool := pvBeq (pnorm a) (pnorm b)

/-- The value contains no NaN float or NaN date payload (Python compares
NaN unequal to itself, so such values cannot round-trip up to `==`). -/
def noNan : PValue → Bool
  | .float b => !isNan64 b
  | .date b => !isNan64 b
  | .array xs => noNanList xs
  | .dict kvs => noNanPairs kvs
  | _ => true
where
  noNanList : List PValue → Bool
    | [] => true
    | x :: r => noNan x && noNanList r
  noNanPairs : List (PValue × PValue) → Bool
    | [] => true
    | (k, v) :: r => noNan k && noNan v && noNanPairs r

/-! ## UTF-16 and float32 helpers (host collaborators)

generate_utf16 calls the host utf-16-be encoder and parse_utf16_string the
corresponding strict decoder; parse_ascii_string calls the strict ASCII
decoder.  These are modelled at the code-unit level: encoding writes each
unit as two big-endian bytes, decoding re-pairs them; the strict decoders
reject unpaired surrogates (encoder side: a Python string containing a
lone surrogate makes the utf-16-be encoder raise, decoder side:
PyUnicode_DecodeUTF16 with NULL errors raises on an unpaired surrogate). -/

def utf16BE : List Nat → List Nat
  | [] => []
  | u :: r => beBytes 2 u ++ utf16BE r

def utf16Units : List Nat → List Nat
  | a :: b :: r => (a * 256 + b) :: utf16Units r
  | _ => []

def isHighSurrogate (u : Nat) : Bool := decide (0xD800 ≤ u ∧ u ≤ 0xDBFF)

def isLowSurrogate (u : Nat) : Bool := decide (0xDC00 ≤ u ∧ u ≤ 0xDFFF)

/-- A code-unit sequence is valid UTF-16 when every high surrogate is
immediately followed by a low surrogate and no low surrogate appears
unpaired. -/
def validUTF16 : List Nat → Bool
  | [] => true
  | u :: r =>
    if isHighSurrogate u then
      match r with
      | l :: r2 => isLowSurrogate l && validUTF16 r2
      | [] => false
    else if isLowSurrogate u then false
    else validUTF16 r

/-- The exact widening of an IEEE-754 single-precision bit pattern to the
double-precision pattern, as performed by the C cast `(double)f` in
parse_float32.  Normal numbers rebias the exponent and shift the mantissa;
subnormals renormalize; infinities and NaNs map to exponent 0x7FF. -/
def f32ToF64Bits (b32 : Nat) : Nat :=
  let b := b32 % 2 ^ 32
  let s := b / 2 ^ 31
  let e := (b / 2 ^ 23) % 2 ^ 8
  let m := b % 2 ^ 23
  if e = 0xFF then s * 2 ^ 63 + 0x7FF * 2 ^ 52 + m * 2 ^ 29
  else if e = 0 then
    if m = 0 then s * 2 ^ 63
    else
      let t := Nat.log2 m
      s * 2 ^ 63 + (874 + t) * 2 ^ 52 + (m - 2 ^ t) * 2 ^ (52 - t)
  else s * 2 ^ 63 + (e + 896) * 2 ^ 52 + m * 2 ^ 29

/-! ## Generation-side validity

`genValid` captures exactly the Python values the C generator can receive
and encode: integers are 64-bit (PyLong_AsSsize_t), uids are nonzero
64-bit (generate_uid takes PyLong_AsSize_t and feeds it to
`__builtin_clzll`, which is undefined at zero), data bytes are byte
values, string code units are 16-bit and encodable by the host codecs,
float and date patterns are 64-bit, and dict keys are hashable scalars
that are pairwise distinct under Python equality (a Python dict cannot
hold two keys comparing equal, and parse_dict feeds parsed keys to
PyDict_SetItem, which raises for unhashable bytearray/list/dict keys). -/

def hashableScalar : PValue → Bool
  | .data _ => false
  | .array _ => false
  | .dict _ => false
  | _ => true

def keysDistinct : List (PValue × PValue) → Bool
  | [] => true
  | (k, _) :: r => r.all (fun p => !pyEq k p.1) && keysDistinct r

def genValid : PValue → Bool
  | .bool _ => true
  | .int i => decide (-(2 ^ 63) ≤ i ∧ i < 2 ^ 63)
  | .float b => decide (b < 2 ^ 64)
  | .date b => decide (b < 2 ^ 64)
  | .uid n => decide (1 ≤ n ∧ n < 2 ^ 64)
  | .data bs => bs.all (· < 256)
  | .string us =>
    us.all (· < 2 ^ 16) &&
    (if us.all (· ≤ 0xFF) then us.all (· ≤ 0x7F) else validUTF16 us)
  | .array xs => genValidList xs
  | .dict kvs => genValidPairs kvs && keysDistinct kvs && (kvs.all (fun p => hashableScalar p.1))
where
  genValidList : List PValue → Bool
    | [] => true
    | x :: r => genValid x && genValidList r
  genValidPairs : List (PValue × PValue) → Bool
    | [] => true
    | (k, v) :: r => genValid k && genValid v && genValidPairs r

/-! ## The parser

parse_plist / parse_plist_object / parse_array / parse_dict are mutually
recursive C functions whose recursion is bounded only by the machine
stack.  The embedding packages the mutual recursion as a single function
`parseCore` over a task sum type, structurally recursive on a fuel
parameter standing for the stack; `parsePlist` starts it with fuel equal
to the input length, which exceeds the recursion depth of every parse
that the C code completes on a generated buffer (a cyclic crafted input,
which would overflow the C stack, exhausts the fuel instead). -/

inductive PErr where
  | invalidHeader
  | tooShort
  | badWidth
  | tableOut
  | badIndex
  | objOut
  | unknownTag
  | badLength
  | hostErr
  | depthOut
  deriving DecidableEq

structure PState where
  bytes : List Nat
  dataEnd : Nat
  refSize : Nat
  offsetSize : Nat
  objectCount : Nat
  offsetTable : Nat

/-- parse_data: strict bound check `object + length < object_end`, then
PyByteArray_FromStringAndSize (which raises on a negative size). -/
def parseData (bs : List Nat) (dataEnd : Nat) (type : Nat) (pos : Nat) :
    Except PErr PValue :=
  let r := unpackLength bs type pos
  if (r.2 : Int) + r.1 < dataEnd then
    if 0 ≤ r.1 then .ok (.data ((bs.drop r.2).take r.1.toNat))
    else .error .hostErr
  else .error .badLength

/-- parse_ascii_string: strict bound check, then the strict ASCII decoder
(raises on a byte at or above 0x80 and on a negative size). -/
def parseAsciiStr (bs : List Nat) (dataEnd : Nat) (type : Nat) (pos : Nat) :
    Except PErr PValue :=
  let r := unpackLength bs type pos
  if (r.2 : Int) + r.1 < dataEnd then
    if 0 ≤ r.1 then
      let payload := (bs.drop r.2).take r.1.toNat
      if payload.all (· < 0x80) then .ok (.string payload) else .error .hostErr
    else .error .hostErr
  else .error .badLength

/-- parse_utf16_string: the unit count is doubled into a byte count, then
the strict bound check and the strict UTF-16-BE decoder. -/
def parseUtf16Str (bs : List Nat) (dataEnd : Nat) (type : Nat) (pos : Nat) :
    Except PErr PValue :=
  let r := unpackLength bs type pos
  let blen := r.1 * 2
  if (r.2 : Int) + blen < dataEnd then
    if 0 ≤ blen then
      let us := utf16Units ((bs.drop r.2).take blen.toNat)
      if validUTF16 us then .ok (.string us) else .error .hostErr
    else .error .hostErr
  else .error .badLength

/-- PyDict_SetItem: replace the value of an existing key comparing equal
under Python `==` (keeping the original key object and position), else
append. -/
def dictInsert (acc : List (PValue × PValue)) (k v : PValue) :
    List (PValue × PValue) :=
  if acc.any (fun p => pyEq p.1 k) then
    acc.map (fun p => if pyEq p.1 k then (p.1, v) else p)
  else acc ++ [(k, v)]

inductive PTask where
  | obj (idx : Nat)
  | marker (m : Nat) (pos : Nat)
  | arr (pos : Nat) (k : Nat)
  | dct (kpos : Nat) (vpos : Nat) (k : Nat) (acc : List (PValue × PValue))

inductive PRes where
  | val (v : PValue)
  | list (l : List PValue)
  | pairs (l : List (PValue × PValue))

/-- The mutual recursion of parse_plist_object / parse_array / parse_dict.
`.obj` is the body of parse_plist_object up to reading the marker byte;
`.marker` is its switch; `.arr` is the loop of parse_array; `.dct` is the
loop of parse_dict. -/
def parseCore (st : PState) : Nat → PTask → Except PErr PRes
  | 0, _ => .error .depthOut
  | fuel + 1, .obj idx =>
    let ta := st.offsetTable + idx * st.offsetSize
    if ta = 0 ∨ ta ≥ st.dataEnd then .error .badIndex
    else
      let off := unpackUintAt st.bytes ta st.offsetSize
      if off = 0 ∨ off ≥ st.dataEnd then .error .objOut
      else parseCore st fuel (.marker (byteAt st.bytes off) (off + 1))
  | fuel + 1, .marker m pos =>
    let hi := m &&& 0xF0
    if hi = 0x10 then .ok (.val (.int (unpackIntAt st.bytes pos m)))
    else if hi = 0x80 then
      .ok (.val (.uid (unpackUintAt st.bytes pos ((m &&& 0xF) + 1))))
    else if hi = 0x50 then (parseAsciiStr st.bytes st.dataEnd m pos).map .val
    else if hi = 0x60 then (parseUtf16Str st.bytes st.dataEnd m pos).map .val
    else if hi = 0x40 then (parseData st.bytes st.dataEnd m pos).map .val
    else if hi = 0xD0 then
      let r := unpackLength st.bytes m pos
      let ulen := i64ToU64 r.1
      if r.2 + ulen * st.refSize * 2 > st.dataEnd then .error .badLength
      else
        match parseCore st fuel (.dct r.2 (r.2 + ulen * st.refSize) ulen []) with
        | .ok (.pairs acc) => .ok (.val (.dict acc))
        | .ok _ => .error .hostErr
        | .error e => .error e
    else if hi = 0xA0 then
      let r := unpackLength st.bytes m pos
      let ulen := i64ToU64 r.1
      if r.2 + ulen * st.refSize > st.dataEnd then .error .badLength
      else if r.1 < 0 then .error .hostErr
      else
        match parseCore st fuel (.arr r.2 r.1.toNat) with
        | .ok (.list l) => .ok (.val (.array l))
        | .ok _ => .error .hostErr
        | .error e => .error e
    else if hi = 0x00 then
      if m = 0x08 then .ok (.val (.bool false))
      else if m = 0x09 then .ok (.val (.bool true))
      else .error .unknownTag
    else if hi = 0x20 then
      if m = 0x23 then .ok (.val (.float (readBE st.bytes pos 8)))
      else if m = 0x22 then .ok (.val (.float (f32ToF64Bits (readBE st.bytes pos 4))))
      else .error .unknownTag
    else if hi = 0x30 then .ok (.val (.date (readBE st.bytes pos 8)))
    else .error .unknownTag
  | _ + 1, .arr _ 0 => .ok (.list [])
  | fuel + 1, .arr pos (k + 1) =>
    let ref := unpackUintAt st.bytes pos st.refSize
    match parseCore st fuel (.obj ref) with
    | .ok (.val v) =>
      match parseCore st fuel (.arr (pos + st.refSize) k) with
      | .ok (.list l) => .ok (.list (v :: l))
      | .ok _ => .error .hostErr
      | .error e => .error e
    | .ok _ => .error .hostErr
    | .error e => .error e
  | _ + 1, .dct _ _ 0 acc => .ok (.pairs acc)
  | fuel + 1, .dct kpos vpos (k + 1) acc =>
    let kIdx := unpackUintAt st.bytes kpos st.refSize
    let vIdx := unpackUintAt st.bytes vpos st.refSize
    match parseCore st fuel (.obj kIdx) with
    | .ok (.val kv) =>
      match parseCore st fuel (.obj vIdx) with
      | .ok (.val vv) =>
        if hashableScalar kv then
          parseCore st fuel (.dct (kpos + st.refSize) (vpos + st.refSize) k (dictInsert acc kv vv))
        else .error .hostErr
      | .ok _ => .error .hostErr
      | .error e => .error e
    | .ok _ => .error .hostErr
    | .error e => .error e

/-- The body of parse_plist_object for a single index. -/
def parsePlistObject (st : PState) (fuel : Nat) (idx : Nat) : Except PErr PValue :=
  match parseCore st fuel (.obj idx) with
  | .ok (.val v) => .ok v
  | .ok _ => .error .hostErr
  | .error e => .error e

def bplistHeader : List Nat := [0x62, 0x70, 0x6C, 0x69, 0x73, 0x74, 0x30, 0x30]

/-- parse_plist: header comparison, minimum length check, trailer field
extraction (6 padding bytes, offset_size, ref_size, then three big-endian
u64 fields), width validation, offset-table bound check, then the
recursive object parse starting at the top object index. -/
def parsePlist (bs : List Nat) : Except PErr PValue :=
  if bs.take 8 ≠ bplistHeader then .error .invalidHeader
  else if bs.length < 8 + 32 then .error .tooShort
  else
    let len := bs.length
    let osz := byteAt bs (len - 26)
    let rsz := byteAt bs (len - 25)
    let cnt := readBE bs (len - 24) 8
    let top := readBE bs (len - 16) 8
    let toff := readBE bs (len - 8) 8
    if ¬(osz = 1 ∨ osz = 2 ∨ osz = 4 ∨ osz = 8) then .error .badWidth
    else if ¬(rsz = 1 ∨ rsz = 2 ∨ rsz = 4 ∨ rsz = 8) then .error .badWidth
    else if toff > len - 32 then .error .tableOut
    else
      parsePlistObject
        { bytes := bs, dataEnd := len - 32, refSize := rsz,
          offsetSize := osz, objectCount := cnt, offsetTable := toff }
        len top

/-! ## The generator

generate_plist_object and its helpers.  The growing byte buffer and the
offset vector are plain lists (the C exponential-resize machinery only
manages capacity and cannot fail except for out-of-memory, which is not
modelled); the container helpers reserve the child-reference region and
patch it by buffer offset before generating each child, exactly as the C
code does with its offset-addressed pack_uint writes. -/

structure GState where
  buf : List Nat
  offs : List Nat
  cnt : Nat

/-- Write `l` over the bytes of `bs` starting at `pos` (the reserved
child-reference slots are always inside the buffer when this is used). -/
def writeAt (bs : List Nat) (pos : Nat) (l : List Nat) : List Nat :=
  bs.take pos ++ l ++ bs.drop (pos + l.length)

def emit (s : GState) (l : List Nat) : GState := { s with buf := s.buf ++ l }

/-- Result of generate_plist_object: 0 becomes `.ok`, -1 becomes `.fail`
(unsupported value or host encoding error), 1 becomes `.tooMany` (the
num_objects == 0xFFFF bailout). -/
inductive GRes where
  | ok (s : GState)
  | fail
  | tooMany

/-- generate_plist_object.  Every call first records the current buffer
offset (truncated to the uint32 offset-vector entry width), increments
num_objects and bails with 1 when it reaches 0xFFFF.  The dispatch then
mirrors the C type-check cascade; note that CPython's PyLong_Check
accepts booleans (bool is a subclass of int carrying the long-subclass
type flag), so the `.bool` arm takes the generate_int path with
PyLong_AsSsize_t mapping False/True to 0/1, and the later
`type == &PyBool_Type` branch of the C code is unreachable.  The uid arm
comes first because the C code tests `type == uid_class` before
PyLong_Check. -/
def genObject (s : GState) (v : PValue) : GRes :=
  let s := { s with offs := s.offs ++ [s.buf.length % 2 ^ 32], cnt := s.cnt + 1 }
  if s.cnt = 0xFFFF then .tooMany
  else
    match v with
    | .uid n => .ok (emit s (uidBytes n))
    | .int i => .ok (emit s (packIntBytes i))
    | .bool b => .ok (emit s (packIntBytes (if b then 1 else 0)))
    | .string us =>
      if us.all (· ≤ 0xFF) then
        if us.all (· ≤ 0x7F) then
          .ok (emit s (packTypeLen 0x50 us.length ++ us))
        else .fail
      else
        if validUTF16 us then
          .ok (emit s (packTypeLen 0x60 us.length ++ utf16BE us))
        else .fail
    | .data bs => .ok (emit s (packTypeLen 0x40 bs.length ++ bs))
    | .dict kvs =>
      let s := emit s (packTypeLen 0xD0 kvs.length)
      let base := s.buf.length
      genDictGo (emit s (List.replicate (4 * kvs.length) 0)) base (base + 2 * kvs.length) kvs
    | .array xs =>
      let s := emit s (packTypeLen 0xA0 xs.length)
      let base := s.buf.length
      genArrayGo (emit s (List.replicate (2 * xs.length) 0)) base xs
    | .date b => .ok (emit s (0x33 :: beBytes 8 b))
    | .float b => .ok (emit s (0x23 :: beBytes 8 b))
where
  genArrayGo (s : GState) (pos : Nat) : List PValue → GRes
    | [] => .ok s
    | x :: rest =>
      let s := { s with buf := writeAt s.buf pos (beBytes 2 s.cnt) }
      match genObject s x with
      | .ok s2 => genArrayGo s2 (pos + 2) rest
      | e => e
  genDictGo (s : GState) (kpos vpos : Nat) : List (PValue × PValue) → GRes
    | [] => .ok s
    | (k, v) :: rest =>
      let s := { s with buf := writeAt s.buf kpos (beBytes 2 s.cnt) }
      match genObject s k with
      | .ok s1 =>
        let s1 := { s1 with buf := writeAt s1.buf vpos (beBytes 2 s1.cnt) }
        match genObject s1 v with
        | .ok s2 => genDictGo s2 (kpos + 2) (vpos + 2) rest
        | e => e
      | e => e

/-- The offset-size selection of
generate_plist_offset_table_and_trailer: 1 byte up to 0xFF, 2 up to
0xFFFF, 4 up to 0xFFFFFFFF, and failure beyond. -/
def chooseOffsetSize (objLen : Nat) : Option Nat :=
  if objLen ≤ 0xFF then some 1
  else if objLen ≤ 0xFFFF then some 2
  else if objLen ≤ 0xFFFFFFFF then some 4
  else none

def flatBE (w : Nat) : List Nat → List Nat
  | [] => []
  | n :: r => beBytes w n ++ flatBE w r

/-- The 32-byte trailer: 6 zero padding bytes, offset_size, ref_size, and
num_objects / top_object / offset_table_offset as big-endian u64
(top_object stays at its zero initialization). -/
def trailerBytes (osz cnt toff : Nat) : List Nat :=
  List.replicate 6 0 ++ [osz, 2] ++ beBytes 8 cnt ++ beBytes 8 0 ++ beBytes 8 toff

inductive GOut where
  | ok (bytes : List Nat)
  | failed
  | aborted
  deriving DecidableEq

/-- generate_plist: the header is written first, the root object is
generated, and on success the finalizer appends the offset table and
trailer.  A -1 from generate_plist_object releases the buffer and returns
NULL (`.failed`); a 1 (too many objects for the fixed ref_size = 2)
releases the buffer and then calls abort(), terminating the process
abnormally (`.aborted`). -/
def genPlist (v : PValue) : GOut :=
  let s0 : GState := { buf := bplistHeader, offs := [], cnt := 0 }
  match genObject s0 v with
  | .tooMany => .aborted
  | .fail => .failed
  | .ok s =>
    match chooseOffsetSize s.buf.length with
    | none => .failed
    | some osz =>
      .ok (s.buf ++ flatBE osz s.offs ++ trailerBytes osz s.cnt s.buf.length)

set_option maxRecDepth 4000

/-! ## Claim C5: pack_int width selection -/

/-- Claim C5: pack_int encodes a 64-bit signed integer v by reinterpreting
it as u64; any bit set in the high 32 bits (which includes every negative
v) selects marker 0x13 with 8 big-endian bytes, otherwise the smallest of
1/2/4 bytes covering the value is used with markers 0x10/0x11/0x12, so
0..255 takes 1 byte, 256..65535 takes 2 and 65536..2^32-1 takes 4. -/
theorem c5_pack_int_width_selection (v : Int)
    (hlo : -(2 ^ 63) ≤ v) (hhi : v < 2 ^ 63) :
    (2 ^ 32 ≤ i64ToU64 v → packIntBytes v = 0x13 :: beBytes 8 (i64ToU64 v)) ∧
    (v < 0 → 2 ^ 32 ≤ i64ToU64 v) ∧
    (0 ≤ v → i64ToU64 v = v.toNat) ∧
    (0x10000 ≤ i64ToU64 v → i64ToU64 v < 2 ^ 32 →
      packIntBytes v = 0x12 :: beBytes 4 (i64ToU64 v)) ∧
    (0x100 ≤ i64ToU64 v → i64ToU64 v < 0x10000 →
      packIntBytes v = 0x11 :: beBytes 2 (i64ToU64 v)) ∧
    (i64ToU64 v < 0x100 → packIntBytes v = 0x10 :: beBytes 1 (i64ToU64 v)) := by
  have heq := packIntBytes_eq v
  refine ⟨?_, ?_, ?_, ?_, ?_, ?_⟩
  · intro h
    rw [heq, if_pos h]
  · intro hneg
    rw [i64ToU64_of_neg hlo hneg]
    omega
  · intro hpos
    exact i64ToU64_of_nonneg hpos (by omega)
  · intro h1 h2
    rw [heq, if_neg (by omega), if_pos (by norm_num at h1 ⊢; omega)]
  · intro h1 h2
    rw [heq, if_neg (by norm_num at h2 ⊢; omega), if_neg (by norm_num at h2 ⊢; omega),
        if_pos (by norm_num at h1 ⊢; omega)]
  · intro h
    rw [heq, if_neg (by norm_num at h ⊢; omega), if_neg (by norm_num at h ⊢; omega),
        if_neg (by norm_num at h ⊢; omega)]

/-- Witness for C5 at v = -1 (encoded as marker 0x13 with the 8-byte
two-complement pattern) with the hypotheses discharged concretely. -/
theorem c5_pack_int_width_selection_witness :
    packIntBytes (-1) = 0x13 :: beBytes 8 (2 ^ 64 - 1) := by
  obtain ⟨ha, _⟩ := c5_pack_int_width_selection (-1) (by norm_num) (by norm_num)
  have hu : i64ToU64 (-1) = 2 ^ 64 - 1 := by decide
  rw [← hu]
  exact ha (by rw [hu]; norm_num)

/-! ## Claim C6: finalizer offset-size selection -/

/-- Claim C6 counterexample: at objects_length = 0x10000 the finalizer
chooses offset_size 4 (the minimum of the set {1,2,4} the code draws
from), but the claimed minimality inequality
objects_length > 2^(8*(offset_size-1)) - 1 fails because 0x10000 is far
below 2^24 - 1; the claim is false as stated. -/
theorem c6_offset_size_minimality_counterexample :
    chooseOffsetSize 0x10000 = some 4 ∧ ¬(0x10000 > 2 ^ (8 * (4 - 1)) - 1) := by
  constructor
  · rfl
  · norm_num

/-- Claim C6 amended: the finalizer picks the minimum offset_size among
{1,2,4} whose byte width covers objects_length, where minimality is with
respect to the set {1,2,4} (offset_size 2 requires objects_length above
2^8 - 1 and offset_size 4 requires it above 2^16 - 1, the bound of the
next smaller member of the set, not of offset_size - 1); generation fails
exactly when objects_length exceeds 2^32 - 1. -/
theorem c6_amended_offset_size_selection (n : Nat) :
    (∀ s, chooseOffsetSize n = some s →
      (s = 1 ∨ s = 2 ∨ s = 4) ∧ n ≤ 2 ^ (8 * s) - 1 ∧
      (s = 2 → 2 ^ 8 - 1 < n) ∧ (s = 4 → 2 ^ 16 - 1 < n)) ∧
    (chooseOffsetSize n = none ↔ 2 ^ 32 - 1 < n) := by
  unfold chooseOffsetSize
  constructor
  · intro s hs
    by_cases h1 : n ≤ 0xFF
    · rw [if_pos h1] at hs
      injection hs with hs
      subst hs
      refine ⟨Or.inl rfl, by norm_num; omega, by omega, by omega⟩
    · rw [if_neg h1] at hs
      by_cases h2 : n ≤ 0xFFFF
      · rw [if_pos h2] at hs
        injection hs with hs
        subst hs
        refine ⟨Or.inr (Or.inl rfl), by norm_num at h2 ⊢; omega,
          fun _ => by norm_num at h1 ⊢; omega, by omega⟩
      · rw [if_neg h2] at hs
        by_cases h3 : n ≤ 0xFFFFFFFF
        · rw [if_pos h3] at hs
          injection hs with hs
          subst hs
          refine ⟨Or.inr (Or.inr rfl), by norm_num at h3 ⊢; omega, by omega,
            fun _ => by norm_num at h2 ⊢; omega⟩
        · rw [if_neg h3] at hs
          exact absurd hs (by simp)
  · by_cases h1 : n ≤ 0xFF
    · rw [if_pos h1]
      simp only [reduceCtorEq, false_iff, not_lt]
      norm_num at h1 ⊢
      omega
    · rw [if_neg h1]
      by_cases h2 : n ≤ 0xFFFF
      · rw [if_pos h2]
        simp only [reduceCtorEq, false_iff, not_lt]
        norm_num at h2 ⊢
        omega
      · rw [if_neg h2]
        by_cases h3 : n ≤ 0xFFFFFFFF
        · rw [if_pos h3]
          simp only [reduceCtorEq, false_iff, not_lt]
          norm_num at h3 ⊢
          omega
        · rw [if_neg h3]
          simp only [true_iff]
          norm_num at h3 ⊢
          omega

/-- Witness for the amended C6 at objects_length = 300: offset_size 2 is
chosen and the minimality bound against the next smaller width holds. -/
theorem c6_amended_offset_size_selection_witness :
    (2 : Nat) ^ 8 - 1 < 300 ∧ 300 ≤ 2 ^ (8 * 2) - 1 := by
  have h := (c6_amended_offset_size_selection 300).1 2 (by rfl)
  exact ⟨h.2.2.1 rfl, h.2.1⟩

/-! ## Claim C8: strict variable-length bounds -/

/-- Claim C8: parse_data, parse_ascii_string and parse_utf16_string all
use the strict bound `object + length < object_end`, so an object whose
payload ends exactly at data_end is rejected with the length error (for
utf16 the byte length is twice the decoded unit count). -/
theorem c8_exact_fit_rejected (bs : List Nat) (dataEnd : Nat) (type : Nat) (pos : Nat) :
    (((unpackLength bs type pos).2 : Int) + (unpackLength bs type pos).1 = dataEnd →
      parseData bs dataEnd type pos = .error .badLength ∧
      parseAsciiStr bs dataEnd type pos = .error .badLength) ∧
    (((unpackLength bs type pos).2 : Int) + (unpackLength bs type pos).1 * 2 = dataEnd →
      parseUtf16Str bs dataEnd type pos = .error .badLength) := by
  constructor
  · intro h
    constructor
    · unfold parseData
      rw [if_neg (by omega)]
    · unfold parseAsciiStr
      rw [if_neg (by omega)]
  · intro h
    unfold parseUtf16Str
    rw [if_neg (by omega)]

/-- Witness for C8: a data object with inline length 2 whose payload ends
exactly at data_end 2, and a utf16 object with inline length 2 filling
data_end 4 exactly, are both rejected. -/
theorem c8_exact_fit_rejected_witness :
    parseData [] 2 0x42 0 = .error .badLength ∧
    parseUtf16Str [] 4 0x62 0 = .error .badLength := by
  have h := c8_exact_fit_rejected [] 2 0x42 0
  have h2 := c8_exact_fit_rejected [] 4 0x62 0
  exact ⟨(h.1 (by decide)).1, h2.2 (by decide)⟩

/-! ## Claim C10: uid markers never fail and odd widths read 8 bytes -/

/-- Claim C10: for every marker with high nibble 0x8 the parser succeeds
regardless of the low nibble L (no unknown-tag error), computing width
L + 1 and reading it through unpack_uint, whose default case reads 8
big-endian bytes for every width other than 1, 2 and 4; in particular
markers 0x82 and 0x84..0x8F all read exactly 8 bytes. -/
theorem c10_uid_widths_never_unknown_tag (st : PState) (fuel pos L : Nat)
    (hL : L < 16) :
    parseCore st (fuel + 1) (.marker (0x80 ||| L) pos) =
      .ok (.val (.uid (unpackUintAt st.bytes pos (L + 1)))) ∧
    (L ≠ 0 → L ≠ 1 → L ≠ 3 →
      unpackUintAt st.bytes pos (L + 1) = readBE st.bytes pos 8) := by
  have hb1 : (0x80 ||| L) &&& 0xF0 = 0x80 := by interval_cases L <;> rfl
  have hb2 : (0x80 ||| L) &&& 0xF = L := by interval_cases L <;> rfl
  constructor
  · simp only [parseCore]
    rw [hb1, hb2]
    norm_num
  · intro h1 h2 h3
    unfold unpackUintAt
    rw [if_neg (by omega), if_neg (by omega), if_neg (by omega)]

/-- Witness for C10 at L = 2: marker 0x82 (width 3) succeeds and reads 8
bytes. -/
theorem c10_uid_widths_never_unknown_tag_witness :
    parseCore { bytes := [], dataEnd := 0, refSize := 2, offsetSize := 1,
                objectCount := 0, offsetTable := 0 } (0 + 1) (.marker (0x80 ||| 2) 0) =
      .ok (.val (.uid (unpackUintAt [] 0 (2 + 1)))) ∧
    ((2 : Nat) ≠ 0 → (2 : Nat) ≠ 1 → (2 : Nat) ≠ 3 →
      unpackUintAt [] 0 (2 + 1) = readBE [] 0 8) :=
  c10_uid_widths_never_unknown_tag
    { bytes := [], dataEnd := 0, refSize := 2, offsetSize := 1,
      objectCount := 0, offsetTable := 0 } 0 0 2 (by norm_num)

/-! ## Claim C3: object offset bounds -/

/-- A 42-byte input whose single offset-table entry is 6, pointing inside
the 8-byte header: the byte at offset 6 is 0x30 (part of the ASCII
header), which parse_plist_object dispatches as a date, reading 8 bytes
spanning the filler object, the offset table and trailer padding. -/
def c3HeaderOffsetBuf : List Nat :=
  bplistHeader ++ [0x08, 0x06] ++ List.replicate 6 0 ++ [1, 2] ++
    beBytes 8 1 ++ beBytes 8 0 ++ beBytes 8 9

/-- Claim C3 counterexample: the offset-table entry 6 lies inside the
header (6 < 8), yet the parse succeeds and returns a date, so the parser
does not enforce the claimed lower bound 8 on object offsets (the code
only rejects offsets that are 0 or at/after the trailer). -/
theorem c3_header_offset_accepted :
    byteAt c3HeaderOffsetBuf 9 = 6 ∧ (6 < 8) ∧
    readBE c3HeaderOffsetBuf (c3HeaderOffsetBuf.length - 8) 8 = 9 ∧
    parsePlist c3HeaderOffsetBuf = .ok (.date 0x3008060000000000) := by
  refine ⟨rfl, by norm_num, rfl, rfl⟩

/-- Claim C3 amended: for an in-bounds offset-table slot,
parse_plist_object rejects the offset read from it exactly when it is 0
or at/after file_length - 32 (the trailer start, the parser's data_end);
offsets 1..7 inside the header, and offsets inside the offset-table
region below the trailer, are accepted and dispatched on the byte they
address. -/
theorem c3_amended_offset_bounds (st : PState) (fuel idx : Nat)
    (h1 : st.offsetTable + idx * st.offsetSize ≠ 0)
    (h2 : st.offsetTable + idx * st.offsetSize < st.dataEnd) :
    (unpackUintAt st.bytes (st.offsetTable + idx * st.offsetSize) st.offsetSize = 0 ∨
       unpackUintAt st.bytes (st.offsetTable + idx * st.offsetSize) st.offsetSize ≥ st.dataEnd →
      parseCore st (fuel + 1) (.obj idx) = .error .objOut) ∧
    (0 < unpackUintAt st.bytes (st.offsetTable + idx * st.offsetSize) st.offsetSize →
     unpackUintAt st.bytes (st.offsetTable + idx * st.offsetSize) st.offsetSize < st.dataEnd →
      parseCore st (fuel + 1) (.obj idx) =
        parseCore st fuel
          (.marker
            (byteAt st.bytes
              (unpackUintAt st.bytes (st.offsetTable + idx * st.offsetSize) st.offsetSize))
            (unpackUintAt st.bytes (st.offsetTable + idx * st.offsetSize) st.offsetSize + 1))) := by
  constructor
  · intro h
    simp only [parseCore]
    rw [if_neg (by omega), if_pos (by omega)]
  · intro ha hb
    simp only [parseCore]
    rw [if_neg (by omega), if_neg (by omega)]

/-- Witness for the amended C3 on the concrete buffer: the offset 6 read
from the table is accepted and dispatched on byte 0x30. -/
theorem c3_amended_offset_bounds_witness :
    parseCore
      { bytes := c3HeaderOffsetBuf, dataEnd := 10, refSize := 2,
        offsetSize := 1, objectCount := 1, offsetTable := 9 } (1 + 1) (.obj 0) =
      parseCore
        { bytes := c3HeaderOffsetBuf, dataEnd := 10, refSize := 2,
          offsetSize := 1, objectCount := 1, offsetTable := 9 } 1
        (.marker
          (byteAt c3HeaderOffsetBuf
            (unpackUintAt c3HeaderOffsetBuf (9 + 0 * 1) 1))
          (unpackUintAt c3HeaderOffsetBuf (9 + 0 * 1) 1 + 1)) :=
  (c3_amended_offset_bounds
    { bytes := c3HeaderOffsetBuf, dataEnd := 10, refSize := 2,
      offsetSize := 1, objectCount := 1, offsetTable := 9 } 1 0
    (by decide) (by decide)).2 (by decide) (by decide)

/-! ## Claim C4: container references vs num_objects -/

/-- A 45-byte input: one array object [ref 1] at offset 8, a true object
at offset 10, the declared offset table at offset 11 holding the single
entry 8, and the byte 10 at offset 12 just past the declared table.  The
trailer declares num_objects = 1, so the array's child reference 1 is
not below the object count. -/
def c4RefBeyondCountBuf : List Nat :=
  bplistHeader ++ [0xA1, 0x01, 0x09, 0x08, 0x0A] ++ List.replicate 6 0 ++ [1, 1] ++
    beBytes 8 1 ++ beBytes 8 0 ++ beBytes 8 11

/-- Claim C4 counterexample: the trailer's num_objects is 1 and the array
payload holds the child reference 1, which is not strictly below the
object count, yet parsing succeeds (returning [True]); the parser never
compares references against num_objects (the object_count field of the
parse state is dead), it only bounds the derived table address and
offset. -/
theorem c4_ref_beyond_count_accepted :
    readBE c4RefBeyondCountBuf (c4RefBeyondCountBuf.length - 24) 8 = 1 ∧
    byteAt c4RefBeyondCountBuf 9 = 1 ∧
    parsePlist c4RefBeyondCountBuf = .ok (.array [.bool true]) := by
  refine ⟨rfl, rfl, rfl⟩

/-- Claim C4 amended: the parser's result is entirely independent of the
trailer's num_objects value — parse_plist stores it in the parse state
but no parsing step ever reads it, so no reference check against it
exists; references are only constrained by the offset-table address
bounds of parse_plist_object. -/
theorem c4_amended_object_count_never_checked (fuel : Nat) :
    ∀ (st : PState) (n : Nat) (t : PTask),
      parseCore { st with objectCount := n } fuel t = parseCore st fuel t := by
  induction fuel with
  | zero => intro st n t; rfl
  | succ fuel ih =>
    intro st n t
    cases t with
    | obj idx => simp only [parseCore, ih]
    | marker m pos => simp only [parseCore, ih]
    | arr pos k =>
      cases k with
      | zero => rfl
      | succ k => simp only [parseCore, ih]
    | dct kpos vpos k acc =>
      cases k with
      | zero => rfl
      | succ k => simp only [parseCore, ih]

/-! ## Claim C2: generate(False) -/

/-- The buffer generate_plist actually produces for False: the header,
the two-byte integer object 10 00 (marker 0x10, payload 0), a one-entry
1-byte offset table [8], and the 32-byte trailer with offset_size 1,
ref_size 2, num_objects 1, top_object 0 and offset_table_offset 10. -/
def c2FalseBuf : List Nat :=
  [0x62, 0x70, 0x6C, 0x69, 0x73, 0x74, 0x30, 0x30, 0x10, 0x00, 0x08,
   0, 0, 0, 0, 0, 0, 1, 2,
   0, 0, 0, 0, 0, 0, 0, 1,
   0, 0, 0, 0, 0, 0, 0, 0,
   0, 0, 0, 0, 0, 0, 0, 10]

/-- Claim C2: evaluating the generator at False.  Because CPython's
PyLong_Check accepts booleans (bool subclasses int), generate_plist emits
the integer object 10 00 instead of the claimed single marker byte 08
(the dedicated PyBool_Type branch of generate_plist_object is dead code),
the trailer's offset_table_offset is 10 rather than 9, and parsing the
produced buffer returns the integer 0, not False. -/
theorem c2_false_generates_int_object :
    genPlist (.bool false) = .ok c2FalseBuf ∧
    byteAt c2FalseBuf 8 = 0x10 ∧
    parsePlist c2FalseBuf = .ok (.int 0) := by
  refine ⟨rfl, rfl, rfl⟩

/-! ## Claim C7: too many objects -/

theorem genObject_bool_eq (s : GState) (b : Bool) :
    genObject s (.bool b) =
      if s.cnt + 1 = 0xFFFF then .tooMany
      else .ok { buf := s.buf ++ packIntBytes (if b then 1 else 0),
                 offs := s.offs ++ [s.buf.length % 2 ^ 32], cnt := s.cnt + 1 } := by
  by_cases h : s.cnt + 1 = 0xFFFF
  · rw [if_pos h]
    simp only [genObject]
    rw [if_pos h]
  · rw [if_neg h]
    simp only [genObject]
    rw [if_neg h]
    rfl

/-- The array-children loop of generate_plist_object bails with the
too-many-objects result as soon as the running count would reach
0xFFFF. -/
theorem goReplicateAborts (n : Nat) : ∀ (s : GState) (pos c : Nat), s.cnt = c →
    c < 0xFFFF → 0xFFFF ≤ c + n →
    genObject.genArrayGo s pos (List.replicate n (PValue.bool false)) = .tooMany := by
  induction n with
  | zero => intro s pos c hc h1 h2; omega
  | succ n ih =>
    intro s pos c hc h1 h2
    rw [List.replicate_succ]
    simp only [genObject.genArrayGo]
    rw [genObject_bool_eq]
    by_cases hcc : s.cnt + 1 = 0xFFFF
    · rw [if_pos (by dsimp only; omega)]
    · rw [if_neg (by dsimp only; omega)]
      exact ih _ _ (c + 1) (by dsimp only; omega) (by omega) (by omega)

/-- Claim C7: when generation reaches 0xFFFF objects, generate_plist does
release its output buffer and produces no bytes, but it does not return
an ordinary error: the code turns return value 1 of
generate_plist_object into a call to abort() (behind the comment `retry
with larger ref_size`), terminating the process abnormally; the model's
distinguished `.aborted` outcome records exactly that path, reached for
every flat list long enough that the running object count hits
0xFFFF. -/
theorem c7_too_many_objects_aborts (n : Nat) (h : 0xFFFF ≤ n + 1) :
    genPlist (.array (List.replicate n (.bool false))) = .aborted := by
  have habort : genObject { buf := bplistHeader, offs := [], cnt := 0 }
      (.array (List.replicate n (.bool false))) = .tooMany := by
    simp only [genObject]
    rw [if_neg (by norm_num)]
    exact goReplicateAborts n _ _ 1 (by dsimp only [emit]) (by norm_num) (by omega)
  simp only [genPlist]
  rw [habort]

/-- Witness for C7: a list of 65534 booleans (65535 objects in total,
counting the array itself) makes generation abort. -/
theorem c7_too_many_objects_aborts_witness :
    genPlist (.array (List.replicate 65534 (.bool false))) = .aborted :=
  c7_too_many_objects_aborts 65534 (by norm_num)

/-! ## Round-trip machinery: list surgery for the generator buffers -/

theorem byteAt_append_left {a : List Nat} (b : List Nat) {i : Nat} (h : i < a.length) :
    byteAt (a ++ b) i = byteAt a i := by
  simp [byteAt, List.getD, List.getElem?_append_left h]

theorem byteAt_append_right (a : List Nat) (b : List Nat) (i : Nat) :
    byteAt (a ++ b) (a.length + i) = byteAt b i := by
  simp [byteAt, List.getD,
    List.getElem?_append_right (by omega : a.length ≤ a.length + i)]

theorem writeAt_length {a : List Nat} {pos : Nat} {l : List Nat}
    (h : pos + l.length ≤ a.length) : (writeAt a pos l).length = a.length := by
  simp [writeAt]
  omega

theorem writeAt_append {a : List Nat} (b : List Nat) {pos : Nat} {l : List Nat}
    (h : pos + l.length ≤ a.length) :
    writeAt (a ++ b) pos l = writeAt a pos l ++ b := by
  simp only [writeAt, List.take_append_eq_append_take, List.drop_append_eq_append_drop,
    List.length_append]
  rw [show pos - a.length = 0 by omega, show pos + l.length - a.length = 0 by omega]
  simp

theorem writeAt_nil (a : List Nat) (pos : Nat) : writeAt a pos [] = a := by
  simp [writeAt]

/-- Writing at the head of the reserved zero block peels that many
zeros. -/
theorem writeAt_replicate_head {l : List Nat} {k : Nat} (a : List Nat)
    (_h : l.length ≤ k) :
    writeAt (a ++ List.replicate k 0) a.length l =
      a ++ l ++ List.replicate (k - l.length) 0 := by
  simp only [writeAt, List.take_append_eq_append_take, List.drop_append_eq_append_drop]
  rw [show a.length - a.length = 0 by omega,
      show a.length + l.length - a.length = l.length by omega,
      List.take_length, List.drop_replicate,
      List.drop_eq_nil_of_le (by omega : a.length ≤ a.length + l.length)]
  simp

/-- Two adjacent writes merge into one. -/
theorem writeAt_writeAt_adjacent {a : List Nat} {pos : Nat} {l1 l2 : List Nat}
    (hp : pos ≤ a.length) :
    writeAt (writeAt a pos l1) (pos + l1.length) l2 = writeAt a pos (l1 ++ l2) := by
  simp only [writeAt, List.take_append_eq_append_take, List.drop_append_eq_append_drop,
    List.append_assoc, List.take_take, List.drop_drop, List.length_take, List.length_append]
  rw [show min pos a.length = pos by omega]
  rw [show pos + l1.length - pos = l1.length by omega]
  rw [show min (pos + l1.length) pos = pos by omega]
  rw [List.take_length, show l1.length - l1.length = 0 by omega]
  rw [List.drop_eq_nil_of_le
       (show (List.take pos a).length ≤ pos + l1.length + l2.length by
         simp; omega)]
  rw [List.drop_eq_nil_of_le
       (show l1.length ≤ pos + l1.length + l2.length - pos by omega)]
  rw [show pos + l1.length + (pos + l1.length + l2.length - pos - l1.length) =
        pos + (l1.length + l2.length) by omega]
  simp

/-! ## Round-trip machinery: the pure encoding functions

`encBytes c v` is the byte string genObject appends for `v` when the
object counter stands at `c` before the call (child references inside
containers are absolute object indices, which depend only on `c`), and
`encOffs c p v` is the offset-vector segment it appends when the object
buffer holds `p` bytes before the call.  `genShape` below proves that
genObject's effect is exactly these functions. -/

def encBytes (c : Nat) : PValue → List Nat
  | .bool b => packIntBytes (if b then 1 else 0)
  | .int i => packIntBytes i
  | .uid n => uidBytes n
  | .float b => 0x23 :: beBytes 8 b
  | .date b => 0x33 :: beBytes 8 b
  | .data bs => packTypeLen 0x40 bs.length ++ bs
  | .string us =>
    if us.all (· ≤ 0xFF) then packTypeLen 0x50 us.length ++ us
    else packTypeLen 0x60 us.length ++ utf16BE us
  | .array xs =>
    packTypeLen 0xA0 xs.length ++ encRefs (c + 1) xs ++ encList (c + 1) xs
  | .dict kvs =>
    packTypeLen 0xD0 kvs.length ++ encKRefs (c + 1) kvs ++ encVRefs (c + 1) kvs ++
      encPairs (c + 1) kvs
where
  encRefs (c : Nat) : List PValue → List Nat
    | [] => []
    | x :: r => beBytes 2 c ++ encRefs (c + objCount x) r
  encList (c : Nat) : List PValue → List Nat
    | [] => []
    | x :: r => encBytes c x ++ encList (c + objCount x) r
  encKRefs (c : Nat) : List (PValue × PValue) → List Nat
    | [] => []
    | (k, v) :: r => beBytes 2 c ++ encKRefs (c + objCount k + objCount v) r
  encVRefs (c : Nat) : List (PValue × PValue) → List Nat
    | [] => []
    | (k, v) :: r => beBytes 2 (c + objCount k) ++ encVRefs (c + objCount k + objCount v) r
  encPairs (c : Nat) : List (PValue × PValue) → List Nat
    | [] => []
    | (k, v) :: r =>
      encBytes c k ++ encBytes (c + objCount k) v ++
        encPairs (c + objCount k + objCount v) r

def encOffs (c p : Nat) : PValue → List Nat
  | .array xs =>
    p % 2 ^ 32 ::
      encOffsList (c + 1) (p + (packTypeLen 0xA0 xs.length).length + 2 * xs.length) xs
  | .dict kvs =>
    p % 2 ^ 32 ::
      encOffsPairs (c + 1) (p + (packTypeLen 0xD0 kvs.length).length + 4 * kvs.length) kvs
  | _ => [p % 2 ^ 32]
where
  encOffsList (c p : Nat) : List PValue → List Nat
    | [] => []
    | x :: r =>
      encOffs c p x ++ encOffsList (c + objCount x) (p + (encBytes c x).length) r
  encOffsPairs (c p : Nat) : List (PValue × PValue) → List Nat
    | [] => []
    | (k, v) :: r =>
      encOffs c p k ++
        encOffs (c + objCount k) (p + (encBytes c k).length) v ++
        encOffsPairs (c + objCount k + objCount v)
          (p + (encBytes c k).length + (encBytes (c + objCount k) v).length) r

/-! ### Structural induction helpers for the nested value type -/

theorem pvalue_strong_ind (P : PValue → Prop)
    (step : ∀ v, (∀ w, sizeOf w < sizeOf v → P w) → P v) : ∀ v, P v := by
  have key : ∀ n v, sizeOf v ≤ n → P v := by
    intro n
    induction n with
    | zero => intro v h; exact step v (fun w hw => absurd (by omega : sizeOf w < 0) (by omega))
    | succ n ih => intro v h; exact step v (fun w hw => ih w (by omega))
  exact fun v => key (sizeOf v) v (le_refl _)

theorem sizeOf_mem_array {x : PValue} {xs : List PValue} (h : x ∈ xs) :
    sizeOf x < sizeOf (PValue.array xs) := by
  have := List.sizeOf_lt_of_mem h
  simp only [PValue.array.sizeOf_spec]
  omega

theorem sizeOf_mem_dict_key {k v : PValue} {kvs : List (PValue × PValue)}
    (h : (k, v) ∈ kvs) : sizeOf k < sizeOf (PValue.dict kvs) := by
  have := List.sizeOf_lt_of_mem h
  simp only [PValue.dict.sizeOf_spec, Prod.mk.sizeOf_spec] at *
  omega

theorem sizeOf_mem_dict_val {k v : PValue} {kvs : List (PValue × PValue)}
    (h : (k, v) ∈ kvs) : sizeOf v < sizeOf (PValue.dict kvs) := by
  have := List.sizeOf_lt_of_mem h
  simp only [PValue.dict.sizeOf_spec, Prod.mk.sizeOf_spec] at *
  omega

theorem objCount_pos (v : PValue) : 1 ≤ objCount v := by
  cases v <;> simp [objCount]

theorem objCountList_append (a b : List PValue) :
    objCount.objCountList (a ++ b) =
      objCount.objCountList a + objCount.objCountList b := by
  induction a with
  | nil => simp [objCount.objCountList]
  | cons x r ih => simp [objCount.objCountList, ih]; omega

theorem writeAt_comm {a : List Nat} {p1 p2 : Nat} {l1 l2 : List Nat}
    (h12 : p1 + l1.length ≤ p2) (h2 : p2 + l2.length ≤ a.length) :
    writeAt (writeAt a p1 l1) p2 l2 = writeAt (writeAt a p2 l2) p1 l1 := by
  simp only [writeAt, List.take_append_eq_append_take, List.drop_append_eq_append_drop,
    List.append_assoc, List.take_take, List.drop_drop, List.length_take, List.length_append,
    List.drop_take]
  rw [show p1 ⊓ a.length = p1 by omega, show p2 ⊓ a.length = p2 by omega,
      show p2 ⊓ p1 = p1 by omega, show p1 ⊓ p2 = p1 by omega]
  rw [List.take_of_length_le (show l1.length ≤ p2 - p1 by omega)]
  rw [show p1 - (p2 + l2.length) = 0 by omega]
  rw [show p1 - p2 - l2.length = 0 by omega]
  rw [show p1 - p2 = 0 by omega]
  rw [List.drop_eq_nil_of_le (show l1.length ≤ p2 + l2.length - p1 by omega)]
  rw [show p1 + l1.length - p2 = 0 by omega]
  rw [show p1 + l1.length + (p2 + l2.length - p1 - l1.length) = p2 + l2.length by omega]
  rw [show p2 + l2.length + (0 - l2.length) = p2 + l2.length by omega]
  rw [show p2 - p1 - l1.length = p2 - (p1 + l1.length) by omega]
  simp

theorem encRefs_length (xs : List PValue) : ∀ c, (encBytes.encRefs c xs).length = 2 * xs.length := by
  induction xs with
  | nil => intro c; simp [encBytes.encRefs]
  | cons x r ih => intro c; simp [encBytes.encRefs, beBytes_length, ih]; omega

theorem encKRefs_length (kvs : List (PValue × PValue)) :
    ∀ c, (encBytes.encKRefs c kvs).length = 2 * kvs.length := by
  induction kvs with
  | nil => intro c; simp [encBytes.encKRefs]
  | cons kv r ih =>
    intro c
    obtain ⟨k, v⟩ := kv
    simp [encBytes.encKRefs, beBytes_length, ih]
    omega

theorem encVRefs_length (kvs : List (PValue × PValue)) :
    ∀ c, (encBytes.encVRefs c kvs).length = 2 * kvs.length := by
  induction kvs with
  | nil => intro c; simp [encBytes.encVRefs]
  | cons kv r ih =>
    intro c
    obtain ⟨k, v⟩ := kv
    simp [encBytes.encVRefs, beBytes_length, ih]
    omega

/-- The record/check prologue of generate_plist_object followed by the
per-value dispatch: what a successful call appends to the three state
components. -/
def GenShapeP (v : PValue) : Prop :=
  ∀ s s', genObject s v = .ok s' →
    s' = { buf := s.buf ++ encBytes s.cnt v,
           offs := s.offs ++ encOffs s.cnt s.buf.length v,
           cnt := s.cnt + objCount v }
